import Mathlib

/-!
Shallow embedding of the prog_med fetch pipeline (src/main.rs).

Strings and byte slices are modelled as `List Char`, one `Char` per byte
(all payloads and URLs the program handles are ASCII; `String::from_utf8_lossy`
is the identity there and Rust's `to_lowercase` agrees with ASCII lowercasing).
Fallible Rust operations become `Except`/`Option`; a Rust panic is modelled as
the `none` branch of an `Option`-valued function.
-/

namespace ProgMed

/-- Characters of a modelled string/byte slice. -/
abbrev LC := List Char

/-- Embeds Rust `str::split(sep)` / `[u8]::split`: split on every occurrence of
the separator, keeping empty segments (so a leading, trailing or doubled
separator yields an empty segment, and the empty input yields one empty
segment). -/
def splitSep (sep : Char) : LC → List LC
  | [] => [[]]
  | c :: cs =>
    if c = sep then [] :: splitSep sep cs
    else
      match splitSep sep cs with
      | [] => [[c]]
      | l :: ls => (c :: l) :: ls

/-- Embeds Rust `str::split_once(sep)`: `some (before, after)` at the first
occurrence of the separator, `none` when the separator is absent. -/
def splitOnce (sep : Char) : LC → Option (LC × LC)
  | [] => none
  | c :: cs =>
    if c = sep then some ([], cs)
    else
      match splitOnce sep cs with
      | some (a, b) => some (c :: a, b)
      | none => none

/-- Embeds `format(url, formatter)` (main.rs:95-101): substitute the
identifier at the first `%` marker, error (`std::fmt::Error`, modelled as
`Unit`) when the template has no marker. -/
def format (url : LC) (formatter : LC) : Except Unit LC :=
  match splitOnce '%' url with
  | some (a, b) => .ok (a ++ formatter ++ b)
  | none => .error ()

/-- The fixed structured-record tag `b"DR   PDB;"` (main.rs:151). -/
def drPdbTag : LC := ['D', 'R', ' ', ' ', ' ', 'P', 'D', 'B', ';']

/-- Embeds the per-line extraction `String::from_utf8_lossy(&slice[10..14]).to_lowercase()`
(main.rs:153). Rust's slice indexing `slice[10..14]` panics when the line is
shorter than 14 bytes; the panic is modelled by `none`. -/
def sliceWindow (l : LC) : Option LC :=
  if 14 ≤ l.length then some (((l.drop 10).take 4).map Char.toLower) else none

/-- Extraction over the retained lines; `none` as soon as one line would make
the Rust code panic. -/
def collectIds : List LC → Option (List LC)
  | [] => some []
  | l :: ls =>
    match sliceWindow l, collectIds ls with
    | some w, some ws => some (w :: ws)
    | _, _ => none

/-- Embeds the parse chain of main.rs:147-155: split the payload on line
feeds, retain the lines starting with the `DR   PDB;` tag, extract the
byte-10..14 window of each, lowercased. `none` models the Rust panic on a
matching line shorter than 14 bytes. -/
def parsePdbIds (payload : LC) : Option (List LC) :=
  collectIds ((splitSep '\n' payload).filter (fun l => drPdbTag.isPrefixOf l))

/-- Embeds the accession handling of main.rs:137-143: an entirely empty
accession field short-circuits (no accession is used); otherwise the field is
split on every `|`, empty segments included. -/
def accessionsOf (field : LC) : List LC :=
  if field = [] then [] else splitSep '|' field

/-- The part of the input that follows the first occurrence of `marker`,
`none` when the marker does not occur. -/
def afterMarker (marker : LC) : LC → Option LC
  | [] => if marker = [] then some [] else none
  | c :: cs =>
    if marker.isPrefixOf (c :: cs) then some ((c :: cs).drop marker.length)
    else afterMarker marker cs

/-- Embeds `hyper::Uri::path()` for the URLs the program builds: the path is
what follows the authority (the host part after `://`, up to the next `/`),
with any query or fragment stripped; a URL without `://` is taken as a bare
path. -/
def pathOfUrl (u : LC) : LC :=
  let p :=
    match afterMarker [':', '/', '/'] u with
    | some rest => rest.dropWhile (fun c => c != '/')
    | none => u
  p.takeWhile (fun c => c != '?' && c != '#')

/-- Embeds `Path::new(url.path()).file_name()` (main.rs:208): the final
normal component of the path — `none` when there is none (root or empty path)
or when the final component is `..`. -/
def fileNameOf (u : LC) : Option LC :=
  let segs := (splitSep '/' (pathOfUrl u)).filter (fun s => s != [] && s != ['.'])
  match segs.getLast? with
  | none => none
  | some s => if s = ['.', '.'] then none else some s

/-- A mirror HTTP response as `download_pdb` observes it: the status code and
the streamed body bytes. -/
structure Response where
  status : Nat
  body : List Nat
deriving DecidableEq

/-- The network oracle: what `client.get(url)` yields for a concrete URL —
either a transport-level failure (`Except.error`, the `?` at main.rs:223) or
a response. -/
abbrev Net := LC → Except Unit Response

/-- The observable state threaded through `download_pdb`: the files present
in the destination directory (name and written body) and the URLs requested
so far, in order. -/
structure DlState where
  fs : List (LC × List Nat)
  reqs : List LC
deriving DecidableEq

/-- The hard-error cases of `download_pdb`: a template without a `%` marker
(main.rs:205), a URL path without a usable final component (main.rs:211-215),
and a transport-level request failure (main.rs:223). -/
inductive DlErr
  | fmtErr
  | nameErr
  | transport
deriving DecidableEq

/-- Embeds `download_pdb` (main.rs:200-237). Per template, in order: resolve
the template (`format` error propagates), derive the destination file name
from the URL path (`none` propagates as the "Check your config urls" error),
short-circuit with `Ok` when that file already exists, otherwise issue the
request (a transport failure propagates); a non-200 status continues with the
next template, a 200 status writes the body and stops. An exhausted template
list returns `Ok`. The `Uri` parse at main.rs:205 is modelled as the identity
on the resolved URL string. -/
def downloadPdb (pdbId : LC) (net : Net) : List LC → DlState → Except DlErr Unit × DlState
  | [], s => (.ok (), s)
  | t :: ts, s =>
    match format t pdbId with
    | .error _ => (.error .fmtErr, s)
    | .ok url =>
      match fileNameOf url with
      | none => (.error .nameErr, s)
      | some name =>
        if name ∈ s.fs.map Prod.fst then (.ok (), s)
        else
          match net url with
          | .error _ => (.error .transport, ⟨s.fs, s.reqs ++ [url]⟩)
          | .ok res =>
            if res.status = 200 then
              (.ok (), ⟨s.fs ++ [(name, res.body)], s.reqs ++ [url]⟩)
            else
              downloadPdb pdbId net ts ⟨s.fs, s.reqs ++ [url]⟩

/-- How the accession loop of `process_data` ends. -/
inductive ProcOut
  | completed
  | fetchAborted (a : LC)
  | panicked (a : LC)
deriving DecidableEq

/-- Embeds the accession loop of `process_data` (main.rs:142-194) against a
fetch oracle (`fetch_data` on the accession's lookup URL). Returns, in order:
the accessions for which a lookup fetch was issued, the extracted identifiers
for which a download task was spawned, and the outcome. The `?` at
main.rs:145 makes a fetch failure abort the loop; a short matching line makes
the parse at main.rs:153 panic (modelled by `ProcOut.panicked`), which also
aborts the loop. An accession whose payload parses to zero identifiers just
continues (main.rs:158-164); download failures are only logged
(main.rs:189-193) and never change the control flow. -/
def processAccessions (fetch : LC → Except Unit LC) : List LC → List LC × List LC × ProcOut
  | [] => ([], [], .completed)
  | a :: as =>
    match fetch a with
    | .error _ => ([a], [], .fetchAborted a)
    | .ok page =>
      match parsePdbIds page with
      | none => ([a], [], .panicked a)
      | some ids =>
        let r := processAccessions fetch as
        (a :: r.1, ids ++ r.2.1, r.2.2)

/-- The log records the orchestrator's await loop can emit: the per-task
failure line (main.rs:88) and the terminal summary (main.rs:91). -/
inductive LogEntry
  | taskFailed
  | summary
deriving DecidableEq

/-- One joined task outcome as `main` observes it: the outer `Except` is the
join result (`Except.error` = the task panicked, propagated by the `?` at
main.rs:87), the inner one is the task's own `Result<()>`. -/
abbrev TaskOut := Except Unit (Except Unit Unit)

/-- Embeds the await loop of `main` (main.rs:86-90): a join error aborts via
`?`, a task's own error is logged and the loop continues. -/
def awaitTasks (acc : List LogEntry) : List TaskOut → List LogEntry × Except Unit Unit
  | [] => (acc, .ok ())
  | o :: os =>
    match o with
    | .error _ => (acc, .error ())
    | .ok (.error _) => awaitTasks (acc ++ [.taskFailed]) os
    | .ok (.ok _) => awaitTasks acc os

/-- Embeds main.rs:86-92: await every task, then log the terminal summary and
return `Ok(())`; a join error aborts before the summary. -/
def mainRun (outs : List TaskOut) : List LogEntry × Except Unit Unit :=
  match awaitTasks [] outs with
  | (ls, .ok _) => (ls ++ [.summary], .ok ())
  | (ls, .error e) => (ls, .error e)

/-- Whether a joined task outcome is a per-task failure (an inner `Err`). -/
def isTaskFailure (o : TaskOut) : Bool :=
  match o with
  | .ok (.error _) => true
  | _ => false

/-- `splitOnce` finds nothing exactly when the separator is absent. -/
theorem splitOnce_eq_none_iff (sep : Char) (l : LC) : splitOnce sep l = none ↔ sep ∉ l := by
  induction l with
  | nil => simp [splitOnce]
  | cons c cs ih =>
    rw [splitOnce]
    by_cases h : c = sep
    · simp [h]
    · rw [if_neg h]
      cases hs : splitOnce sep cs with
      | none =>
        rw [hs] at ih
        simp only [List.mem_cons, not_or]
        simp [ih.mp rfl]
        exact fun hh => h hh.symm
      | some p =>
        rw [hs] at ih
        have hmem : sep ∈ cs := by
          by_contra hno
          exact absurd (ih.mpr hno) (by simp)
        simp [List.mem_cons, hmem]

/-- `splitOnce` splits at the first occurrence of the separator. -/
theorem splitOnce_first (sep : Char) (a b : LC) (ha : sep ∉ a) :
    splitOnce sep (a ++ sep :: b) = some (a, b) := by
  induction a with
  | nil => simp [splitOnce]
  | cons c cs ih =>
    have hc : ¬ c = sep := fun h => ha (by simp [h])
    have hcs : sep ∉ cs := fun h => ha (by simp [h])
    simp [splitOnce, if_neg hc, ih hcs]

/-- When every retained line is long enough, `collectIds` is the plain
window-extraction map. -/
theorem collectIds_eq_map (ls : List LC) (h : ∀ l ∈ ls, 14 ≤ l.length) :
    collectIds ls = some (ls.map fun l => ((l.drop 10).take 4).map Char.toLower) := by
  induction ls with
  | nil => rfl
  | cons l ls ih =>
    have hw : sliceWindow l = some (((l.drop 10).take 4).map Char.toLower) := by
      simp [sliceWindow, h l (by simp)]
    simp [collectIds, hw, ih fun x hx => h x (by simp [hx])]

/-- Unfolding `downloadPdb` when the derived file already exists. -/
theorem downloadPdb_cons_present (id t : LC) (ts : List LC) (net : Net) (s : DlState)
    (url name : LC)
    (hf : format t id = .ok url) (hn : fileNameOf url = some name)
    (hmem : name ∈ s.fs.map Prod.fst) :
    downloadPdb id net (t :: ts) s = (.ok (), s) := by
  simp only [downloadPdb, hf, hn, if_pos hmem]

/-- Unfolding `downloadPdb` on a 200 response: write the body and stop. -/
theorem downloadPdb_cons_hit (id t : LC) (ts : List LC) (net : Net) (s : DlState)
    (url name : LC) (res : Response)
    (hf : format t id = .ok url) (hn : fileNameOf url = some name)
    (habs : name ∉ s.fs.map Prod.fst) (hres : net url = .ok res)
    (hst : res.status = 200) :
    downloadPdb id net (t :: ts) s =
      (.ok (), ⟨s.fs ++ [(name, res.body)], s.reqs ++ [url]⟩) := by
  simp only [downloadPdb, hf, hn, hres, if_neg habs, if_pos hst]

/-- Unfolding `downloadPdb` on a non-200 response: continue with the next
template. -/
theorem downloadPdb_cons_miss (id t : LC) (ts : List LC) (net : Net) (s : DlState)
    (url name : LC) (res : Response)
    (hf : format t id = .ok url) (hn : fileNameOf url = some name)
    (habs : name ∉ s.fs.map Prod.fst) (hres : net url = .ok res)
    (hst : res.status ≠ 200) :
    downloadPdb id net (t :: ts) s = downloadPdb id net ts ⟨s.fs, s.reqs ++ [url]⟩ := by
  simp only [downloadPdb, hf, hn, hres, if_neg habs, if_neg hst]

/-- A run of soft misses (templates that resolve, are absent on disk and
answer with a non-200 status) only records their requests and hands over to
the remaining templates. -/
theorem downloadPdb_skip_misses (id : LC) (net : Net) (ms : List (LC × LC × LC))
    (ts : List LC) (fs0 : List (LC × List Nat)) (rq0 : List LC)
    (hm : ∀ x ∈ ms, format x.1 id = .ok x.2.1 ∧ fileNameOf x.2.1 = some x.2.2 ∧
      x.2.2 ∉ fs0.map Prod.fst ∧ ∃ res, net x.2.1 = .ok res ∧ res.status ≠ 200) :
    downloadPdb id net (ms.map Prod.fst ++ ts) ⟨fs0, rq0⟩ =
      downloadPdb id net ts ⟨fs0, rq0 ++ ms.map fun x => x.2.1⟩ := by
  induction ms generalizing rq0 with
  | nil => simp
  | cons x xs ih =>
    obtain ⟨hf, hn, habs, res, hres, hst⟩ := hm x (by simp)
    rw [List.map_cons, List.cons_append,
      downloadPdb_cons_miss id x.1 (xs.map Prod.fst ++ ts) net ⟨fs0, rq0⟩ x.2.1 x.2.2 res
        hf hn habs hres hst,
      ih _ fun y hy => hm y (List.mem_cons_of_mem x hy)]
    simp

/-- In the absence of join errors, the await loop logs one failure line per
failed task and succeeds. -/
theorem awaitTasks_no_panic (outs : List TaskOut) (h : ∀ o ∈ outs, o ≠ .error ())
    (acc : List LogEntry) :
    awaitTasks acc outs =
      (acc ++ (outs.filter isTaskFailure).map fun _ => LogEntry.taskFailed, .ok ()) := by
  induction outs generalizing acc with
  | nil => simp [awaitTasks]
  | cons o os ih =>
    have hos : ∀ x ∈ os, x ≠ Except.error () := fun x hx => h x (by simp [hx])
    cases o with
    | error e => exact absurd rfl (h (Except.error e) (by simp))
    | ok r =>
      cases r with
      | error e2 => simp [awaitTasks, ih hos, isTaskFailure, List.filter_cons]
      | ok u => simp [awaitTasks, ih hos, isTaskFailure, List.filter_cons]

/-- Claim C10: template substitution errors exactly when the template has no
`%` marker; with at least one marker it replaces the first `%` by the
identifier and leaves every later `%` in place verbatim. -/
theorem c10_format (url f : LC) :
    (format url f = .error () ↔ '%' ∉ url) ∧
    ∀ a b : LC, url = a ++ '%' :: b → '%' ∉ a → format url f = .ok (a ++ f ++ b) := by
  constructor
  · unfold format
    cases hs : splitOnce '%' url with
    | none => simp [(splitOnce_eq_none_iff '%' url).mp hs]
    | some p =>
      have hmem : '%' ∈ url := by
        by_contra hno
        exact absurd ((splitOnce_eq_none_iff '%' url).mpr hno) (by simp [hs])
      simp [hmem]
  · intro a b hab hna
    subst hab
    unfold format
    rw [splitOnce_first '%' a b hna]

/-- Witness for C10 at the template `x%y%z` and identifier `ID`: the first
marker is substituted, the second stays verbatim. -/
theorem c10_format_witness :
    format ("x%y%z".toList) ("ID".toList) = .ok ("xIDy%z".toList) :=
  (c10_format ("x%y%z".toList) ("ID".toList)).2 ("x".toList) ("y%z".toList) rfl (by decide)

/-- Claim C8: on a payload whose tag-matching lines are at least 14 bytes
long, the parse returns exactly the byte-10..14 windows of the matching
lines, lowercased, in order of appearance, ignoring all other lines and
keeping duplicates. -/
theorem c8_parse_windows (payload : LC)
    (h : ∀ l ∈ splitSep '\n' payload, drPdbTag.isPrefixOf l → 14 ≤ l.length) :
    parsePdbIds payload =
      some (((splitSep '\n' payload).filter fun l => drPdbTag.isPrefixOf l).map
        fun l => ((l.drop 10).take 4).map Char.toLower) := by
  unfold parsePdbIds
  apply collectIds_eq_map
  intro l hl
  have hm := List.mem_filter.mp hl
  exact h l hm.1 hm.2

/-- Witness for C8 at the spec's example payload: two `DR   PDB;` lines
interleaved with unrelated lines yield the two lowercased identifiers in
order. -/
theorem c8_parse_windows_witness :
    parsePdbIds
        ("XX  junk\nDR   PDB; 1ABC; X-ray; 2.00 A.\nCC  other\nDR   PDB; 2xyz; NMR.\n".toList) =
      some [("1abc".toList), ("2xyz".toList)] := by
  rw [c8_parse_windows _ (by decide)]
  rfl

/-- Claim C9, counterexample: the field `A|` (trailing separator) splits into
`["A", ""]`, so the empty accession is passed into the lookup URL. -/
theorem c9_counterexample :
    accessionsOf ("A|".toList) = [['A'], []] ∧ ([] : LC) ∈ accessionsOf ("A|".toList) := by
  exact ⟨rfl, by decide⟩

/-- Claim C9 as amended: every accession used is non-empty exactly when the
field is entirely empty (then none is used) or its split has no empty
segment; the code only guards the entirely-empty field, so leading, trailing
or doubled separators do pass empty accessions into the URL. -/
theorem c9_nonempty_iff (field : LC) :
    (∀ a ∈ accessionsOf field, a ≠ []) ↔ field = [] ∨ [] ∉ splitSep '|' field := by
  unfold accessionsOf
  by_cases h : field = []
  · simp [h]
  · rw [if_neg h]
    simp only [h, false_or]
    constructor
    · intro hall hmem
      exact hall [] hmem rfl
    · intro hnot a ha heq
      exact hnot (heq ▸ ha)

/-- Witness for the amended C9 at a separator-free field. -/
theorem c9_nonempty_iff_witness : ∀ a ∈ accessionsOf ("P12345".toList), a ≠ [] :=
  (c9_nonempty_iff ("P12345".toList)).mpr (by decide)

/-- Claim C1: a payload whose single matching line is the 9-byte `DR   PDB;`
makes the extraction panic (the `none` branch of the model, Rust's
out-of-bounds slice `slice[10..14]`), and inside the accession loop the panic
aborts the sibling accession `B` instead of yielding an error for the owning
payload only. -/
theorem c1_short_line_panics :
    parsePdbIds ("DR   PDB;".toList) = none ∧
    processAccessions (fun _ => .ok ("DR   PDB;".toList)) [['A'], ['B']] =
      ([['A']], [], .panicked ['A']) :=
  ⟨rfl, rfl⟩

/-- Claim C2, counterexample: with accessions `A` then `B` where only `A`'s
lookup fetch fails, `B` is never attempted and none of its artifacts are
downloaded — although `B` alone would have succeeded with one identifier. -/
theorem c2_counterexample :
    processAccessions
        (fun a => if a = ['A'] then .error () else .ok ("DR   PDB; 1ABC; X-ray.".toList))
        [['A'], ['B']] =
      ([['A']], [], .fetchAborted ['A']) ∧
    processAccessions
        (fun a => if a = ['A'] then .error () else .ok ("DR   PDB; 1ABC; X-ray.".toList))
        [['B']] =
      ([['B']], [("1abc".toList)], .completed) :=
  ⟨rfl, rfl⟩

/-- Claim C2 as amended: a lookup-fetch failure is fatal for the owning
target, not just the owning accession — the loop attempts the accessions
before the failing one (downloading their artifacts) plus the failing one
itself, and abandons every later accession of the same target. -/
theorem c2_fetch_failure_aborts_target (fetch : LC → Except Unit LC)
    (pre : List (LC × LC × List LC)) (bad : LC) (post : List LC)
    (hpre : ∀ x ∈ pre, fetch x.1 = .ok x.2.1 ∧ parsePdbIds x.2.1 = some x.2.2)
    (hbad : fetch bad = .error ()) :
    processAccessions fetch (pre.map Prod.fst ++ bad :: post) =
      (pre.map Prod.fst ++ [bad], (pre.map fun x => x.2.2).flatten, .fetchAborted bad) := by
  induction pre with
  | nil => simp [processAccessions, hbad]
  | cons x xs ih =>
    obtain ⟨hf, hp⟩ := hpre x (by simp)
    simp [processAccessions, hf, hp, ih fun y hy => hpre y (List.mem_cons_of_mem x hy)]

/-- Witness for the amended C2: accession `B` of `[A, B, C]` fails its fetch;
`A` is processed (its identifier downloaded), `B` is attempted, `C` is
abandoned. -/
theorem c2_fetch_failure_aborts_target_witness :
    processAccessions
        (fun a => if a = ['B'] then .error () else .ok ("DR   PDB; 1ABC; X-ray.".toList))
        [['A'], ['B'], ['C']] =
      ([['A'], ['B']], [("1abc".toList)], .fetchAborted ['B']) := by
  have h := c2_fetch_failure_aborts_target
      (fun a => if a = ['B'] then .error () else .ok ("DR   PDB; 1ABC; X-ray.".toList))
      [(['A'], "DR   PDB; 1ABC; X-ray.".toList, [("1abc".toList)])] ['B'] [['C']]
      (by
        intro x hx
        simp only [List.mem_singleton] at hx
        subst hx
        exact ⟨rfl, rfl⟩)
      rfl
  simpa using h

/-- Claim C3: when no task join fails (no task panicked), the orchestrator's
await loop consumes every task outcome, logs one failure line per failed
target, then logs the terminal summary and returns success — per-target
failures are never escalated. -/
theorem c3_run_always_completes (outs : List TaskOut)
    (h : ∀ o ∈ outs, o ≠ .error ()) :
    mainRun outs =
      ((outs.filter isTaskFailure).map (fun _ => LogEntry.taskFailed) ++ [LogEntry.summary],
        .ok ()) := by
  unfold mainRun
  rw [awaitTasks_no_panic outs h []]
  simp

/-- Witness for C3: one failed target and one successful one — the run still
succeeds, logging the failure and the terminal summary. -/
theorem c3_run_always_completes_witness :
    mainRun [Except.ok (Except.error ()), Except.ok (Except.ok ())] =
      ([LogEntry.taskFailed, LogEntry.summary], .ok ()) := by
  rw [c3_run_always_completes _ (by
    intro o ho
    simp only [List.mem_cons, List.mem_singleton] at ho
    rcases ho with rfl | rfl | h
    · simp
    · simp
    · simp at h)]
  rfl

/-- Claim C4: `download` walks the template list strictly left to right —
each template that resolves, is absent on disk and answers a non-success
(non-200) status is a soft miss; the first success (200) streams the body to
the destination file and stops, and no template after it is ever attempted
(the requested URLs are exactly the misses', in order, then the hit's). -/
theorem c4_mirror_order (id hitT hitUrl hitName : LC) (hitRes : Response)
    (misses : List (LC × LC × LC)) (rest : List LC) (net : Net)
    (fs0 : List (LC × List Nat)) (rq0 : List LC)
    (hm : ∀ x ∈ misses, format x.1 id = .ok x.2.1 ∧ fileNameOf x.2.1 = some x.2.2 ∧
      x.2.2 ∉ fs0.map Prod.fst ∧ ∃ res, net x.2.1 = .ok res ∧ res.status ≠ 200)
    (hf : format hitT id = .ok hitUrl) (hn : fileNameOf hitUrl = some hitName)
    (habs : hitName ∉ fs0.map Prod.fst) (hres : net hitUrl = .ok hitRes)
    (hst : hitRes.status = 200) :
    downloadPdb id net (misses.map Prod.fst ++ hitT :: rest) ⟨fs0, rq0⟩ =
      (.ok (), ⟨fs0 ++ [(hitName, hitRes.body)],
        (rq0 ++ misses.map fun x => x.2.1) ++ [hitUrl]⟩) := by
  rw [downloadPdb_skip_misses id net misses (hitT :: rest) fs0 rq0 hm,
    downloadPdb_cons_hit id hitT rest net ⟨fs0, rq0 ++ misses.map fun x => x.2.1⟩
      hitUrl hitName hitRes hf hn habs hres hst]

/-- Witness for C4: of three mirrors, the first answers 404 and the second
200 — templates are tried in order, the body is saved under the second
mirror's file name, and the third mirror is never requested. -/
theorem c4_mirror_order_witness :
    downloadPdb ("1abc".toList)
        (fun u => if u = ("https://m1/1abc.pdb".toList) then .ok ⟨404, []⟩ else .ok ⟨200, [9]⟩)
        [("https://m1/%.pdb".toList), ("https://m2/%.pdb".toList), ("https://m3/%.pdb".toList)]
        ⟨[], []⟩ =
      (.ok (), ⟨[(("1abc.pdb".toList), [9])],
        [("https://m1/1abc.pdb".toList), ("https://m2/1abc.pdb".toList)]⟩) := by
  have h := c4_mirror_order ("1abc".toList) ("https://m2/%.pdb".toList)
      ("https://m2/1abc.pdb".toList) ("1abc.pdb".toList) ⟨200, [9]⟩
      [(("https://m1/%.pdb".toList), ("https://m1/1abc.pdb".toList), ("1abc.pdb".toList))]
      [("https://m3/%.pdb".toList)]
      (fun u => if u = ("https://m1/1abc.pdb".toList) then .ok ⟨404, []⟩ else .ok ⟨200, [9]⟩)
      [] []
      (by
        intro x hx
        simp only [List.mem_singleton] at hx
        subst hx
        exact ⟨rfl, rfl, by simp, ⟨404, []⟩, rfl, by decide⟩)
      rfl rfl (by simp) rfl rfl
  simpa using h

/-- Claim C5, counterexample: two mirrors whose resolved URLs carry different
file names (`1abc.cif` on mirror 1, `1abc.pdb` on mirror 2), mirror 1
answering 404 and mirror 2 succeeding. Calling `download` twice issues three
requests in total — the claim says exactly one — and the second call
re-requests mirror 1 instead of short-circuiting purely from the filesystem
check. -/
theorem c5_counterexample :
    (downloadPdb ("1abc".toList)
        (fun u => if u = ("https://m1/1abc.cif".toList) then .ok ⟨404, []⟩ else .ok ⟨200, [5]⟩)
        [("https://m1/%.cif".toList), ("https://m2/%.pdb".toList)]
        (downloadPdb ("1abc".toList)
          (fun u => if u = ("https://m1/1abc.cif".toList) then .ok ⟨404, []⟩ else .ok ⟨200, [5]⟩)
          [("https://m1/%.cif".toList), ("https://m2/%.pdb".toList)] ⟨[], []⟩).2).2.reqs =
      [("https://m1/1abc.cif".toList), ("https://m2/1abc.pdb".toList),
        ("https://m1/1abc.cif".toList)] :=
  rfl

/-- Claim C5 as amended: idempotence holds when the first template is the
successful one — the first call issues exactly one request and writes the
file, and the second call issues no request at all, returning success purely
from the existence check on the URL-derived file name; in general a second
call re-requests every earlier template whose derived file name is absent. -/
theorem c5_idempotent_first_mirror (id t1 : LC) (ts : List LC) (net : Net)
    (url name : LC) (res : Response) (fs0 : List (LC × List Nat))
    (hf : format t1 id = .ok url) (hn : fileNameOf url = some name)
    (habs : name ∉ fs0.map Prod.fst) (hres : net url = .ok res)
    (hst : res.status = 200) :
    downloadPdb id net (t1 :: ts) ⟨fs0, []⟩ =
      (.ok (), ⟨fs0 ++ [(name, res.body)], [url]⟩) ∧
    downloadPdb id net (t1 :: ts) ⟨fs0 ++ [(name, res.body)], [url]⟩ =
      (.ok (), ⟨fs0 ++ [(name, res.body)], [url]⟩) := by
  constructor
  · have h := downloadPdb_cons_hit id t1 ts net ⟨fs0, []⟩ url name res hf hn habs hres hst
    simpa using h
  · exact downloadPdb_cons_present id t1 ts net ⟨fs0 ++ [(name, res.body)], [url]⟩
      url name hf hn (by simp)

/-- Witness for the amended C5: a single mirror answering 200 — the first
call issues the one and only request, the second call adds none. -/
theorem c5_idempotent_first_mirror_witness :
    downloadPdb ("1abc".toList) (fun _ => .ok ⟨200, [2]⟩)
        [("https://m/%.pdb".toList)] ⟨[], []⟩ =
      (.ok (), ⟨[(("1abc.pdb".toList), [2])], [("https://m/1abc.pdb".toList)]⟩) ∧
    downloadPdb ("1abc".toList) (fun _ => .ok ⟨200, [2]⟩)
        [("https://m/%.pdb".toList)]
        ⟨[(("1abc.pdb".toList), [2])], [("https://m/1abc.pdb".toList)]⟩ =
      (.ok (), ⟨[(("1abc.pdb".toList), [2])], [("https://m/1abc.pdb".toList)]⟩) := by
  have h := c5_idempotent_first_mirror ("1abc".toList) ("https://m/%.pdb".toList) []
      (fun _ => .ok ⟨200, [2]⟩) ("https://m/1abc.pdb".toList) ("1abc.pdb".toList)
      ⟨200, [2]⟩ [] rfl rfl (by simp) rfl rfl
  simpa using h

/-- Claim C6, counterexample: a transport-level failure on mirror 1 becomes a
hard error immediately — mirror 2, which would have succeeded (second
conjunct), is never attempted, so the hard error does not wait for the list
to be exhausted. -/
theorem c6_counterexample :
    downloadPdb ("1abc".toList)
        (fun u => if u = ("https://m1/1abc.pdb".toList) then .error () else .ok ⟨200, [3]⟩)
        [("https://m1/%.pdb".toList), ("https://m2/%.pdb".toList)] ⟨[], []⟩ =
      (.error .transport, ⟨[], [("https://m1/1abc.pdb".toList)]⟩) ∧
    downloadPdb ("1abc".toList)
        (fun u => if u = ("https://m1/1abc.pdb".toList) then .error () else .ok ⟨200, [3]⟩)
        [("https://m2/%.pdb".toList)] ⟨[], []⟩ =
      (.ok (), ⟨[(("1abc.pdb".toList), [3])], [("https://m2/1abc.pdb".toList)]⟩) :=
  ⟨rfl, rfl⟩

/-- Claim C6 as amended: plain not-found (and any other non-200) responses
never produce a hard error — exhausting the whole list on soft misses returns
the non-error outcome with no file written and every mirror requested in
order; but a transport-level request failure at any template is an immediate
hard error that skips the remaining templates. -/
theorem c6_soft_misses_not_error (id : LC) (net : Net) (ms : List (LC × LC × LC))
    (fs0 : List (LC × List Nat)) (rq0 : List LC)
    (hm : ∀ x ∈ ms, format x.1 id = .ok x.2.1 ∧ fileNameOf x.2.1 = some x.2.2 ∧
      x.2.2 ∉ fs0.map Prod.fst ∧ ∃ res, net x.2.1 = .ok res ∧ res.status ≠ 200) :
    downloadPdb id net (ms.map Prod.fst) ⟨fs0, rq0⟩ =
      (.ok (), ⟨fs0, rq0 ++ ms.map fun x => x.2.1⟩) := by
  have h := downloadPdb_skip_misses id net ms [] fs0 rq0 hm
  simpa [downloadPdb] using h

/-- Witness for the amended C6: one mirror answering 404 — no hard error, no
file, the one request recorded. -/
theorem c6_soft_misses_not_error_witness :
    downloadPdb ("1abc".toList) (fun _ => .ok ⟨404, []⟩)
        [("https://m1/%.pdb".toList)] ⟨[], []⟩ =
      (.ok (), ⟨[], [("https://m1/1abc.pdb".toList)]⟩) := by
  have h := c6_soft_misses_not_error ("1abc".toList) (fun _ => .ok ⟨404, []⟩)
      [(("https://m1/%.pdb".toList), ("https://m1/1abc.pdb".toList), ("1abc.pdb".toList))] [] []
      (by
        intro x hx
        simp only [List.mem_singleton] at hx
        subst hx
        exact ⟨rfl, rfl, by simp, ⟨404, []⟩, rfl, by decide⟩)
  simpa using h

/-- Claim C7, counterexample: a 201 response — a 2xx success per the claim —
is skipped as a soft miss: the body is not saved and the list is exhausted,
returning with no file written. -/
theorem c7_counterexample :
    downloadPdb ("1abc".toList) (fun _ => .ok ⟨201, [7]⟩)
        [("https://m/%.pdb".toList)] ⟨[], []⟩ =
      (.ok (), ⟨[], [("https://m/1abc.pdb".toList)]⟩) :=
  rfl

/-- Claim C7 as amended: exactly status 200 is treated as success (body
saved, iteration stops); every non-200 status — other 2xx codes included —
is a soft miss that moves on to the next template; no 200 response is ever
skipped. -/
theorem c7_status_rule (id t : LC) (ts : List LC) (net : Net) (s : DlState)
    (url name : LC) (res : Response)
    (hf : format t id = .ok url) (hn : fileNameOf url = some name)
    (habs : name ∉ s.fs.map Prod.fst) (hres : net url = .ok res) :
    downloadPdb id net (t :: ts) s =
      if res.status = 200 then
        (.ok (), ⟨s.fs ++ [(name, res.body)], s.reqs ++ [url]⟩)
      else downloadPdb id net ts ⟨s.fs, s.reqs ++ [url]⟩ := by
  by_cases hst : res.status = 200
  · rw [if_pos hst]
    exact downloadPdb_cons_hit id t ts net s url name res hf hn habs hres hst
  · rw [if_neg hst]
    exact downloadPdb_cons_miss id t ts net s url name res hf hn habs hres hst

/-- Witness for the amended C7: a 200 response is taken — the body is saved
under the URL-derived file name and iteration stops. -/
theorem c7_status_rule_witness :
    downloadPdb ("1abc".toList) (fun _ => .ok ⟨200, [1]⟩)
        [("https://m/%.pdb".toList)] ⟨[], []⟩ =
      (.ok (), ⟨[(("1abc.pdb".toList), [1])], [("https://m/1abc.pdb".toList)]⟩) := by
  have h := c7_status_rule ("1abc".toList) ("https://m/%.pdb".toList) []
      (fun _ => .ok ⟨200, [1]⟩) ⟨[], []⟩ ("https://m/1abc.pdb".toList)
      ("1abc.pdb".toList) ⟨200, [1]⟩ rfl rfl (by simp) rfl
  simpa using h

end ProgMed
